import Mathlib

/-!
# A shallow embedding of probe-rs/target-gen

This file embeds the aggregation pipeline of the `target-gen` tool
(`src/generate.rs`, the legacy inline pipeline of `src/main.rs`, and the remote
pack walk) as executable Lean definitions, and proves properties of the
memory-region selection, core mapping, algorithm extraction/merge, descriptor
lookup and failure containment.

Conventions:
- Rust `u64`/`u32` values are `Nat`; the `as u32` casts in region construction
  are explicit `% 2^32` reductions.
- Fallible Rust code (`Result`, `?`, `bail!`) is `Except String`; a `panic!`
  (`unwrap` on `None`) is `Option.none`.
- `log::warn!` / `log::error!` calls are modelled as emitted `LogEntry` values
  (info-level messages are not modelled; no claim concerns them).
- Maps iterated by value (`device.memories.0.values()`, `pdsc.devices.0`) are
  lists of their entries in iteration order.
-/

namespace TargetGen

instance {ε α : Type} [DecidableEq ε] [DecidableEq α] : DecidableEq (Except ε α) := fun x y =>
  match x, y with
  | .ok a, .ok b =>
    if h : a = b then isTrue (congrArg Except.ok h)
    else isFalse (fun hc => h (Except.ok.inj hc))
  | .error a, .error b =>
    if h : a = b then isTrue (congrArg Except.error h)
    else isFalse (fun hc => h (Except.error.inj hc))
  | .ok _, .error _ => isFalse (fun hc => Except.noConfusion hc)
  | .error _, .ok _ => isFalse (fun hc => Except.noConfusion hc)

/-- Access permission bits of a declared memory region
(`cmsis_pack::pdsc` memory `access`; further bits such as `peripheral`
play no role in this crate and are omitted). -/
structure MemAccess where
  read : Bool
  write : Bool
  execute : Bool
deriving DecidableEq

/-- One declared memory region of a device (`cmsis_pack::pdsc` memory entry):
`default`/`startup` flags, access bits and the `u64` start/size. -/
structure Memory where
  default : Bool
  startup : Bool
  access : MemAccess
  start : Nat
  size : Nat
deriving DecidableEq

/-- The `as u32` cast used when regions are built. -/
def u32 (n : Nat) : Nat := n % 4294967296

/-- The `probe_rs::config::RamRegion` record: a half-open `u32` range plus the boot flag. -/
structure RamRegion where
  rangeStart : Nat
  rangeEnd : Nat
  is_boot_memory : Bool
deriving DecidableEq

/-- The `probe_rs::config::FlashRegion` record as used in `generate.rs`. -/
structure FlashRegion where
  rangeStart : Nat
  rangeEnd : Nat
  is_boot_memory : Bool
deriving DecidableEq

/-- The core enumeration of the descriptor library (`cmsis_pack::pdsc::Core`).
The variants beyond the six mapped by `generate.rs` all behave alike there
(they hit the catch-all arm); a representative subset is included. -/
inductive Core
  | cortexM0
  | cortexM0Plus
  | cortexM1
  | cortexM3
  | cortexM4
  | cortexM7
  | cortexM23
  | cortexM33
  | sc000
  | sc300
  | cortexR4
  | cortexA5
deriving DecidableEq

/-- The processor record of a device descriptor (only its `core` matters here). -/
structure Processor where
  core : Core
deriving DecidableEq

/-- The `cmsis_pack::pdsc::Processors` description: symmetric single-core description or an
asymmetric multi-processor description (whose payload is irrelevant here). -/
inductive Processors
  | symmetric (processor : Processor)
  | asymmetric
deriving DecidableEq

/-- One flash-algorithm reference on a device (`file_name` of the FLM member
and the `default` selection flag). -/
structure DeviceAlgorithm where
  file_name : String
  default : Bool
deriving DecidableEq

/-- A parsed device: its family name, declared memory regions (map values in
iteration order), flash-algorithm references and processor description. -/
structure Device where
  family : String
  memories : List Memory
  algorithms : List DeviceAlgorithm
  processor : Processors
deriving DecidableEq

/-- A parsed descriptor (`cmsis_pack::pdsc::Package`): the device map's
entries, keyed by device name. -/
structure Package where
  devices : List (String × Device)
deriving DecidableEq

/-- The `probe_rs::config::RawFlashAlgorithm` record as far as aggregation observes it:
the name, the default flag and the code payload. The remaining fields
(load address, entry points, flash properties) are produced by the ELF
extractor and never inspected by the aggregation code. -/
structure RawFlashAlgorithm where
  name : String
  default : Bool
  instructions : List Nat
deriving DecidableEq

/-- The `probe_rs::config::MemoryRegion` union (the two variants used here). -/
inductive MemoryRegion
  | ram (region : RamRegion)
  | flash (region : FlashRegion)
deriving DecidableEq

/-- The `probe_rs::config::Chip` record: name, optional part number, memory map and the
list of flash-algorithm reference names. -/
structure Chip where
  name : String
  part : Option Nat
  memory_map : List MemoryRegion
  flash_algorithms : List String
deriving DecidableEq

/-- The `probe_rs::config::ChipFamily` record: the registry record for one family. -/
structure ChipFamily where
  name : String
  manufacturer : Option String
  variants : List Chip
  core : String
  flash_algorithms : List RawFlashAlgorithm
deriving DecidableEq

instance : Inhabited ChipFamily where
  default := { name := "", manufacturer := none, variants := [], core := "", flash_algorithms := [] }

/-- The warn/error log calls of the modelled code, as structured events. -/
inductive LogEntry
  | warnFailedAlgo (reason : String)
  | warnUnsupportedCore
  | warnAsymmetric
  | errorDownload (url : String) (msg : String)
  | errorBytes (url : String) (msg : String)
  | errorOpenZip (url : String) (msg : String)
  | errorNoPdsc (url : String)
  | errorReadPdsc (url : String)
  | errorParsePdsc (url : String) (msg : String)
  | errorHandlePackage (url : String) (msg : String)
deriving DecidableEq

/-- Rust `str::to_lowercase` as used on algorithm names (generate.rs:121):
per-character lowercasing. The names involved are ASCII, where this agrees
with Rust's Unicode-general lowering. -/
def to_lowercase (s : String) : String :=
  ⟨s.data.map Char.toLower⟩

/-! ## Memory-region selection (`generate.rs`) -/

/-- The condition of the `get_ram` loop (generate.rs:316):
`memory.default && memory.access.read && memory.access.write`. -/
def ram_cond (m : Memory) : Bool :=
  m.default && m.access.read && m.access.write

/-- Region construction of generate.rs:317-320, with the `as u32` casts. -/
def mk_ram_region (m : Memory) : RamRegion :=
  { rangeStart := u32 m.start
    rangeEnd := u32 (u32 m.start + u32 m.size)
    is_boot_memory := m.startup }

/-- Function `get_ram` of generate.rs:314-325: the first region satisfying `ram_cond`. -/
def get_ram (device : Device) : Option RamRegion :=
  (device.memories.find? ram_cond).map mk_ram_region

/-- The condition of the flash loop in `handle_package` (generate.rs:72):
`memory.default && memory.access.read && memory.access.execute && !memory.access.write`. -/
def flash_cond (m : Memory) : Bool :=
  m.default && m.access.read && m.access.execute && !m.access.write

/-- Region construction of generate.rs:74-77. -/
def mk_flash_region (m : Memory) : FlashRegion :=
  { rangeStart := u32 m.start
    rangeEnd := u32 (u32 m.start + u32 m.size)
    is_boot_memory := m.startup }

/-- The flash-selection loop inlined in `handle_package` (generate.rs:70-80):
the first region satisfying `flash_cond`. -/
def get_flash (device : Device) : Option FlashRegion :=
  (device.memories.find? flash_cond).map mk_flash_region

/-! ## Core mapping (`generate.rs` 82-98) -/

/-- The arms of the core match in `handle_package` (generate.rs:85-90);
`none` stands for the catch-all `bail!` arm. -/
def core_name : Core → Option String
  | .cortexM0 => some "M0"
  | .cortexM0Plus => some "M0"
  | .cortexM4 => some "M4"
  | .cortexM3 => some "M3"
  | .cortexM33 => some "M33"
  | .cortexM7 => some "M7"
  | _ => none

/-- Core mapping of `handle_package` (generate.rs:82-98): a symmetric core is
mapped through `core_name`, an unmapped one hits `bail!`; an asymmetric
processor is logged and yields the empty core identifier. -/
def map_core : Processors → List LogEntry × Except String String
  | .symmetric p =>
    match core_name p.core with
    | some s => ([], .ok s)
    | none => ([], .error "Core is not yet supported for target generation.")
  | .asymmetric => ([.warnAsymmetric], .ok "")

/-! ## Algorithm extraction (`generate.rs` 38-67)

The member lookup (`archive.by_name` / `File::open`) and the ELF decoding
(`parser::extract_flash_algo`, whose source is not part of this crate's `src/`)
are modelled together as one fallible environment function
`extract : DeviceAlgorithm → Except String RawFlashAlgorithm`. -/

/-- The `map` + `filter_map` chain of generate.rs:38-67: each reference is
resolved and extracted; a failure is logged (`warnFailedAlgo`) and that
algorithm is dropped, the rest are kept in order. -/
def extract_algos (extract : DeviceAlgorithm → Except String RawFlashAlgorithm) :
    List DeviceAlgorithm → List RawFlashAlgorithm × List LogEntry
  | [] => ([], [])
  | a :: rest =>
    match extract a with
    | .ok fa =>
      let (algos, logs) := extract_algos extract rest
      (fa :: algos, logs)
    | .error e =>
      let (algos, logs) := extract_algos extract rest
      (algos, .warnFailedAlgo e :: logs)

/-! ## Registry merge (`generate.rs` 100-143) -/

/-- The `Chip` pushed for one device (generate.rs:119-122 and 128-143): the
memory map holds the selected Ram then the selected Flash region when present,
and the reference list holds the lowercased names of the device's successfully
extracted algorithms. -/
def mk_chip (device_name : String) (device : Device) (algos : List RawFlashAlgorithm) : Chip :=
  { name := device_name
    part := none
    memory_map :=
      (match get_ram device with
       | some mem => [MemoryRegion.ram mem]
       | none => []) ++
      (match get_flash device with
       | some mem => [MemoryRegion.flash mem]
       | none => [])
    flash_algorithms := algos.map (fun fa => to_lowercase fa.name) }

/-- The registry merge for one device (generate.rs:100-143): find the family by
name, or push a fresh record (name, mapped core, empty variants and algorithm
set) and use that last record; then push every extracted algorithm and the new
`Chip` onto it. -/
def merge_device (families : List ChipFamily) (device_name : String) (device : Device)
    (core : String) (algos : List RawFlashAlgorithm) : List ChipFamily :=
  let found : List ChipFamily × Nat :=
    match families.findIdx? (fun f => f.name == device.family) with
    | some i => (families, i)
    | none =>
      (families ++ [{ name := device.family, manufacturer := none, variants := [],
                      core := core, flash_algorithms := [] }],
       families.length)
  let fam := found.1.getD found.2 default
  found.1.set found.2
    { fam with
      flash_algorithms := fam.flash_algorithms ++ algos
      variants := fam.variants ++ [mk_chip device_name device algos] }

/-- The body of the device loop of `handle_package` (generate.rs:33-144):
region selection, algorithm extraction, core mapping (whose `bail!` is the
only error exit), then the registry merge. The emitted logs are the extraction
warnings followed by the core-mapping warning, matching execution order. -/
def process_device (extract : DeviceAlgorithm → Except String RawFlashAlgorithm)
    (families : List ChipFamily) (device_name : String) (device : Device) :
    List LogEntry × Except String (List ChipFamily) :=
  let (algos, algo_logs) := extract_algos extract device.algorithms
  match map_core device.processor with
  | (core_logs, .error e) => (algo_logs ++ core_logs, .error e)
  | (core_logs, .ok core) =>
    (algo_logs ++ core_logs, .ok (merge_device families device_name device core algos))

/-- Lexicographic comparison of two character lists by codepoint, the
order underlying `name_le`. -/
def chars_le : List Char → List Char → Bool
  | [], _ => true
  | _ :: _, [] => false
  | a :: as, b :: bs =>
    if a.toNat < b.toNat then true
    else if b.toNat < a.toNat then false
    else chars_le as bs

/-- The name comparison of generate.rs:31 (`a.0.cmp(&b.0)` on `String`):
Rust compares UTF-8 bytes, which coincides with lexicographic codepoint
order on valid UTF-8. -/
def name_le (a b : String) : Bool := chars_le a.data b.data

/-- The device-name sort of generate.rs:30-31: a stable sort of the device
map's entries by name (`devices.sort_by(a.0.cmp(&b.0))`). -/
def sort_devices (devices : List (String × Device)) : List (String × Device) :=
  devices.mergeSort (fun a b => name_le a.1 b.1)

/-- The device loop of `handle_package`: processes devices in order, threading
the registry and the log; `some e` in the last component models the early
`bail!` return. The registry mutations made before the bail stay, as the
source mutates `families` through a `&mut` reference. -/
def handle_package_go (extract : DeviceAlgorithm → Except String RawFlashAlgorithm) :
    List (String × Device) → List ChipFamily → List LogEntry →
    List ChipFamily × List LogEntry × Option String
  | [], families, logs => (families, logs, none)
  | (device_name, device) :: rest, families, logs =>
    match process_device extract families device_name device with
    | (dlogs, .ok families') => handle_package_go extract rest families' (logs ++ dlogs)
    | (dlogs, .error e) => (families, logs ++ dlogs, some e)

/-- Function `handle_package` of generate.rs:21-147: sort the descriptor's devices by name and
process each in turn. -/
def handle_package (extract : DeviceAlgorithm → Except String RawFlashAlgorithm)
    (pdsc : Package) (families : List ChipFamily) :
    List ChipFamily × List LogEntry × Option String :=
  handle_package_go extract (sort_devices pdsc.devices) families []

/-! ## Archive handling (`generate.rs` 178-203, 289-312) -/

/-- Split a character list on a separator (every occurrence, keeping empty
groups), the recursion underlying `file_extension`. -/
def split_chars (sep : Char) : List Char → List (List Char)
  | [] => [[]]
  | c :: rest =>
    let r := split_chars sep rest
    if c = sep then [] :: r
    else
      match r with
      | [] => [[c]]
      | g :: gs => (c :: g) :: gs

/-- Rust `Path::extension` on a member name: the part of the final path
component after its last `.`; `none` when there is no `.`, or when the only
`.` is the leading one of a dotfile. -/
def file_extension (name : String) : Option String :=
  let base := (split_chars '/' name.data).getLastD []
  let parts := split_chars '.' base
  if parts.length ≤ 1 then none
  else if base.headD ' ' == '.' && parts.length == 2 then none
  else some ⟨parts.getLastD []⟩

/-- One archive member: its sanitized name (as `zip`'s `sanitized_name`
reports it) and its textual content. -/
structure ZipEntry where
  name : String
  content : String
deriving DecidableEq

instance : Inhabited ZipEntry where
  default := { name := "", content := "" }

/-- Function `find_pdsc_in_archive` of generate.rs:289-312: scan the member indices in order and
stop at the first whose sanitized name has extension `pdsc`; `none` when no
member qualifies. -/
def find_pdsc_in_archive (members : List String) : Option Nat :=
  members.findIdx? (fun name => file_extension name == some "pdsc")

/-- Function `visit_file` of generate.rs once the archive is open (generate.rs:183-202):
locate the descriptor member (missing one is an error), parse it
(`Package::from_string`, an external library supplied as `parse_pdsc`), then
run `handle_package`; every failure propagates to the caller (fatal in local
mode). -/
def visit_file (parse_pdsc : String → Except String Package)
    (extract : DeviceAlgorithm → Except String RawFlashAlgorithm)
    (entries : List ZipEntry) (families : List ChipFamily) :
    Except String (List ChipFamily × List LogEntry) :=
  match find_pdsc_in_archive (entries.map (fun e => e.name)) with
  | none => .error "Failed to find .pdsc file in archive"
  | some i =>
    match parse_pdsc (entries.getD i default).content with
    | .error e => .error ("Failed to parse pdsc file: " ++ e)
    | .ok package =>
      match handle_package extract package families with
      | (families', logs, none) => .ok (families', logs)
      | (_, _, some e) => .error e

/-! ## Remote pack walk (`generate.rs` 205-286) -/

/-- One catalog entry (`fetch::Pack`, whose defining module is outside the
given `src/`; only its `PackUrl` field is read here). -/
structure Pack where
  PackUrl : String
deriving DecidableEq

/-- Check `url.starts_with("http")` of generate.rs:218, as a structural check on the
leading characters. -/
def starts_with_http (url : String) : Bool :=
  match url.data with
  | 'h' :: 't' :: 't' :: 'p' :: _ => true
  | _ => false

/-- URL resolution of generate.rs:217-220: a relative location is resolved
against the fixed download base. -/
def resolve_url (url : String) : String :=
  if starts_with_http url then url
  else "https://keilpack.azureedge.net/pack/" ++ url

/-- Outcome of the two-step download (generate.rs:224-237):
`reqwest::blocking::get` may fail, then `response.bytes()` may fail. -/
inductive DownloadResult
  | requestError (msg : String)
  | bytesError (msg : String)
  | ok (bytes : List Nat)

/-- The external effects of the remote walk, as environment functions:
HTTP download, zip container opening, member read, descriptor parse, and the
member-lookup-plus-ELF-extraction for the current archive's entries. -/
structure RemoteEnv where
  download : String → DownloadResult
  open_zip : List Nat → Except String (List ZipEntry)
  read_entry : ZipEntry → Except Unit String
  parse_pdsc : String → Except String Package
  extract : List ZipEntry → DeviceAlgorithm → Except String RawFlashAlgorithm

/-- Function `visit_arm_file` of generate.rs:216-286: each stage's failure is logged and the pack
is abandoned with the registry untouched; a `handle_package` error is logged
after the fact, keeping whatever the package run already merged. -/
def visit_arm_file (env : RemoteEnv) (families : List ChipFamily) (pack : Pack) :
    List ChipFamily × List LogEntry :=
  let url := resolve_url pack.PackUrl
  match env.download url with
  | .requestError e => (families, [.errorDownload url e])
  | .bytesError e => (families, [.errorBytes url e])
  | .ok bytes =>
    match env.open_zip bytes with
    | .error e => (families, [.errorOpenZip url e])
    | .ok entries =>
      match find_pdsc_in_archive (entries.map (fun e => e.name)) with
      | none => (families, [.errorNoPdsc url])
      | some i =>
        match env.read_entry (entries.getD i default) with
        | .error _ => (families, [.errorReadPdsc url])
        | .ok content =>
          match env.parse_pdsc content with
          | .error e => (families, [.errorParsePdsc url e])
          | .ok package =>
            match handle_package (env.extract entries) package families with
            | (families', logs, none) => (families', logs)
            | (families', logs, some e) => (families', logs ++ [.errorHandlePackage url e])

/-- Function `visit_arm_files` of generate.rs:205-214: walk the catalog entries in order, each
through `visit_arm_file`. The catalog list itself comes from
`fetch::list_packs`, whose source is outside the given `src/`; it is a
parameter here. -/
def visit_arm_files (env : RemoteEnv) (packs : List Pack) (families : List ChipFamily) :
    List ChipFamily × List LogEntry :=
  match packs with
  | [] => (families, [])
  | pack :: rest =>
    let step := visit_arm_file env families pack
    let next := visit_arm_files env rest step.1
    (next.1, step.2 ++ next.2)

/-! ## The legacy inline pipeline of `main.rs`

`main.rs` carries an older copy of the per-device logic; the claims cite its
core mapping (main.rs:108-123) and its memory-map construction
(main.rs:137-143), which differ from `generate.rs`. -/

/-- The `probe_rs::config::memory::FlashRegion` record as `main.rs` builds it, with the
geometry taken from the last successfully extracted algorithm. -/
structure MainFlashRegion where
  rangeStart : Nat
  rangeEnd : Nat
  is_boot_memory : Bool
  sector_size : Nat
  page_size : Nat
  erased_byte_value : Nat
deriving DecidableEq

/-- Memory-map entries of the legacy pipeline. -/
inductive MainMemoryRegion
  | ram (region : RamRegion)
  | flash (region : MainFlashRegion)
deriving DecidableEq

/-- main.rs:38-47 — identical RAM condition and construction to `get_ram`. -/
def main_get_ram (device : Device) : Option RamRegion :=
  (device.memories.find? ram_cond).map mk_ram_region

/-- The flash condition of main.rs:96: `default && read && execute`
(`write` is not examined there). -/
def main_flash_cond (m : Memory) : Bool :=
  m.default && m.access.read && m.access.execute

/-- main.rs:93-106 — first region satisfying `main_flash_cond`, carrying the
geometry values accumulated from algorithm extraction (defaults `0`, `0`,
`0xFF`). -/
def main_get_flash (page_size sector_size erased_byte_value : Nat) (device : Device) :
    Option MainFlashRegion :=
  (device.memories.find? main_flash_cond).map fun m =>
    { rangeStart := u32 m.start
      rangeEnd := u32 (u32 m.start + u32 m.size)
      is_boot_memory := m.startup
      sector_size := sector_size
      page_size := page_size
      erased_byte_value := erased_byte_value }

/-- The core mapping of main.rs:109-123: an unmapped symmetric core is logged
and yields the empty identifier (no failure), as does an asymmetric
processor. -/
def main_map_core : Processors → List LogEntry × String
  | .symmetric p =>
    match p.core with
    | .cortexM0 => ([], "M0")
    | .cortexM0Plus => ([], "M0")
    | .cortexM4 => ([], "M4")
    | .cortexM3 => ([], "M3")
    | _ => ([.warnUnsupportedCore], "")
  | .asymmetric => ([.warnAsymmetric], "")

/-- The memory-map construction of main.rs:137-143:
`vec![Ram(ram.unwrap()), Flash(flash.unwrap())]`. `none` models the panic
when either slot is absent. -/
def main_chip_memory_map (ram : Option RamRegion) (flash : Option MainFlashRegion) :
    Option (List MainMemoryRegion) :=
  match ram, flash with
  | some r, some f => some [.ram r, .flash f]
  | _, _ => none

/-! ## Spec-side predicates -/

/-- The linking invariant of the spec's data model: every reference name of
every chip names an algorithm stored in the owning family's set. -/
def WellLinked (families : List ChipFamily) : Prop :=
  ∀ fam ∈ families, ∀ chip ∈ fam.variants, ∀ ref ∈ chip.flash_algorithms,
    ∃ fa ∈ fam.flash_algorithms, fa.name = ref

/-- Modelled from the spec: `parser.rs`'s `extract_flash_algo` — the component
that produces each `RawFlashAlgorithm` — is not under the given `src/`. Per
the spec's end-to-end property the record's stored name is lowercase-normalized
("an algorithm set containing one entry named `algo` (lowercase-normalized)"),
i.e. lowercasing it is the identity. -/
def LowercaseExtractor (extract : DeviceAlgorithm → Except String RawFlashAlgorithm) : Prop :=
  ∀ r fa, extract r = .ok fa → to_lowercase fa.name = fa.name

/-! ## Concrete fixtures used by counterexamples and witnesses -/

/-- A default region that is readable, writable and executable. -/
def mem_rwx : Memory :=
  { default := true, startup := false,
    access := { read := true, write := true, execute := true },
    start := 536870912, size := 4096 }

/-- A default RAM-like region: read and write, no execute. -/
def mem_rw : Memory :=
  { default := true, startup := false,
    access := { read := true, write := true, execute := false },
    start := 536870912, size := 4096 }

/-- A default Flash-like region: read and execute, no write. -/
def mem_rx : Memory :=
  { default := true, startup := true,
    access := { read := true, write := false, execute := true },
    start := 134217728, size := 65536 }

def c1_device : Device :=
  { family := "F1", memories := [mem_rwx], algorithms := [],
    processor := .symmetric { core := .cortexM0 } }

def c1w_device : Device :=
  { family := "F1W", memories := [mem_rw, mem_rx], algorithms := [],
    processor := .symmetric { core := .cortexM0 } }

def c2_algo_old : RawFlashAlgorithm :=
  { name := "algo", default := true, instructions := [0] }

def c2_algo_new : RawFlashAlgorithm :=
  { name := "ALGO", default := false, instructions := [1] }

def c2_family : ChipFamily :=
  { name := "F2", manufacturer := none, variants := [], core := "M0",
    flash_algorithms := [c2_algo_old] }

def c2_device : Device :=
  { family := "F2", memories := [],
    algorithms := [{ file_name := "ALGO.FLM", default := false }],
    processor := .symmetric { core := .cortexM0 } }

def c2_extract : DeviceAlgorithm → Except String RawFlashAlgorithm :=
  fun _ => .ok c2_algo_new

/-- An extractor for scenarios whose devices reference no algorithms. -/
def no_extract : DeviceAlgorithm → Except String RawFlashAlgorithm :=
  fun _ => .error "no algorithm available"

def c3_bad_device : Device :=
  { family := "F3", memories := [], algorithms := [],
    processor := .symmetric { core := .cortexM23 } }

def c3_good_device : Device :=
  { family := "F3", memories := [], algorithms := [],
    processor := .symmetric { core := .cortexM0 } }

def c3_asym_device : Device :=
  { family := "F3A", memories := [], algorithms := [],
    processor := .asymmetric }

def c3_package : Package :=
  { devices := [("A", c3_bad_device), ("B", c3_good_device)] }

def c4_device : Device :=
  { family := "F4", memories := [], algorithms := [],
    processor := .symmetric { core := .cortexM4 } }

def c4_l1 : List (String × Device) := [("B", c4_device), ("A", c4_device)]

def c4_l2 : List (String × Device) := [("A", c4_device), ("B", c4_device)]

def c4_package : Package := { devices := c4_l1 }

def c5_device : Device :=
  { family := "F5", memories := [],
    algorithms := [{ file_name := "good.flm", default := true },
                   { file_name := "bad.flm", default := false }],
    processor := .symmetric { core := .cortexM3 } }

def c5_algo : RawFlashAlgorithm :=
  { name := "good", default := true, instructions := [2] }

def c5_extract : DeviceAlgorithm → Except String RawFlashAlgorithm := fun r =>
  if r.file_name = "good.flm" then .ok c5_algo else .error "invalid ELF"

def c6_device : Device :=
  { family := "F6", memories := [], algorithms := [],
    processor := .symmetric { core := .cortexM7 } }

def c7_algo : RawFlashAlgorithm :=
  { name := "algo", default := true, instructions := [3] }

def c7_extract : DeviceAlgorithm → Except String RawFlashAlgorithm :=
  fun _ => .ok c7_algo

def c7_device : Device :=
  { family := "F7", memories := [],
    algorithms := [{ file_name := "Algo.FLM", default := true }],
    processor := .symmetric { core := .cortexM33 } }

def c7_package : Package := { devices := [("D7", c7_device)] }

def c8_entries : List ZipEntry := [{ name := "readme.txt", content := "hello" }]

def c8_parse : String → Except String Package :=
  fun _ => .error "unused in this scenario"

def c9_good_device : Device :=
  { family := "F9A", memories := [], algorithms := [],
    processor := .symmetric { core := .cortexM0 } }

def c9_bad_device : Device :=
  { family := "F9B", memories := [], algorithms := [],
    processor := .symmetric { core := .cortexA5 } }

def c9_ok_device : Device :=
  { family := "F9C", memories := [], algorithms := [],
    processor := .symmetric { core := .cortexM4 } }

def c9_pack1 : Pack := { PackUrl := "http://packs.example/p1.pack" }

def c9_pack2 : Pack := { PackUrl := "http://packs.example/p2.pack" }

def c9_package1 : Package :=
  { devices := [("A", c9_good_device), ("B", c9_bad_device)] }

def c9_package2 : Package := { devices := [("C", c9_ok_device)] }

def c9_entry1 : ZipEntry := { name := "p1.pdsc", content := "pdsc-one" }

def c9_entry2 : ZipEntry := { name := "p2.pdsc", content := "pdsc-two" }

/-- A remote environment in which both packs resolve, but the first pack's
descriptor contains a device with an unmapped core. -/
def c9_env : RemoteEnv :=
  { download := fun url =>
      if url = "http://packs.example/p1.pack" then .ok [1] else .ok [2]
    open_zip := fun bytes =>
      if bytes = [1] then .ok [c9_entry1] else .ok [c9_entry2]
    read_entry := fun e => .ok e.content
    parse_pdsc := fun s =>
      if s = "pdsc-one" then .ok c9_package1 else .ok c9_package2
    extract := fun _ _ => .error "no algorithm available" }

def c9_famA : ChipFamily :=
  { name := "F9A", manufacturer := none,
    variants := [{ name := "A", part := none, memory_map := [], flash_algorithms := [] }],
    core := "M0", flash_algorithms := [] }

def c9_famC : ChipFamily :=
  { name := "F9C", manufacturer := none,
    variants := [{ name := "C", part := none, memory_map := [], flash_algorithms := [] }],
    core := "M4", flash_algorithms := [] }

/-- A remote environment whose every download fails at the request stage. -/
def c9w_env : RemoteEnv :=
  { download := fun _ => .requestError "connection refused"
    open_zip := fun _ => .error "unused in this scenario"
    read_entry := fun e => .ok e.content
    parse_pdsc := fun _ => .error "unused in this scenario"
    extract := fun _ _ => .error "unused in this scenario" }

def c9w_pack : Pack := { PackUrl := "http://packs.example/w.pack" }

def c10_device2 : Device :=
  { family := "F10", memories := [], algorithms := [],
    processor := .symmetric { core := .cortexM4 } }

/-- The family as created by the first processed "F10" device, whose core
mapped to "M0". -/
def c10_family : ChipFamily :=
  { name := "F10", manufacturer := none,
    variants := [{ name := "D1", part := none, memory_map := [], flash_algorithms := [] }],
    core := "M0", flash_algorithms := [] }

/-! ## Helper lemmas -/

theorem getD_set_self {α : Type} (l : List α) (i : Nat) (a d : α) (h : i < l.length) :
    (l.set i a).getD i d = a := by
  simp [List.getD_eq_getElem?_getD, List.getElem?_set, h]

theorem getD_set_ne {α : Type} (l : List α) (i j : Nat) (a d : α) (h : i ≠ j) :
    (l.set i a).getD j d = l.getD j d := by
  simp [List.getD_eq_getElem?_getD, List.getElem?_set, h]

theorem getD_append_last {α : Type} (l : List α) (a d : α) :
    (l ++ [a]).getD l.length d = a := by
  induction l with
  | nil => rfl
  | cons x xs ih => simp [ih]

theorem set_append_last {α : Type} (l : List α) (a b : α) :
    (l ++ [a]).set l.length b = l ++ [b] := by
  induction l with
  | nil => rfl
  | cons x xs ih => simp [List.set, ih]

theorem findIdx?_some_spec {α : Type} (p : α → Bool) (d : α) :
    ∀ {l : List α} {i : Nat}, List.findIdx? p l = some i →
      i < l.length ∧ p (l.getD i d) = true ∧ ∀ j, j < i → p (l.getD j d) = false := by
  intro l
  induction l with
  | nil => intro i h; simp [List.findIdx?] at h
  | cons x xs ih =>
    intro i h
    rw [List.findIdx?_cons] at h
    by_cases hx : p x = true
    · simp only [hx, if_true, Option.some.injEq] at h
      subst h
      exact ⟨Nat.succ_pos _, by simpa using hx, fun j hj => absurd hj (Nat.not_lt_zero j)⟩
    · rw [if_neg hx, List.findIdx?_succ] at h
      obtain ⟨i', hi', hplus⟩ := Option.map_eq_some'.mp h
      subst hplus
      obtain ⟨h1, h2, h3⟩ := ih hi'
      refine ⟨by simpa using Nat.succ_lt_succ h1, by simpa using h2, ?_⟩
      intro j hj
      cases j with
      | zero => simpa using (Bool.not_eq_true _).mp hx
      | succ j' => simpa using h3 j' (Nat.lt_of_succ_lt_succ hj)

theorem extract_algos_fst (extract : DeviceAlgorithm → Except String RawFlashAlgorithm) :
    ∀ l, (extract_algos extract l).1 = l.filterMap (fun r => (extract r).toOption)
  | [] => rfl
  | a :: rest => by
    simp only [extract_algos, List.filterMap_cons]
    cases h : extract a <;>
      simp [h, Except.toOption, extract_algos_fst extract rest]

theorem extract_algos_snd (extract : DeviceAlgorithm → Except String RawFlashAlgorithm) :
    ∀ l, (extract_algos extract l).2 =
      l.filterMap (fun r =>
        match extract r with
        | .ok _ => none
        | .error e => some (LogEntry.warnFailedAlgo e))
  | [] => rfl
  | a :: rest => by
    simp only [extract_algos, List.filterMap_cons]
    cases h : extract a <;>
      simp [h, extract_algos_snd extract rest]

theorem merge_device_found {families : List ChipFamily} {device : Device} {i : Nat}
    (h : families.findIdx? (fun f => f.name == device.family) = some i)
    (device_name core : String) (algos : List RawFlashAlgorithm) :
    merge_device families device_name device core algos =
      families.set i
        { families.getD i default with
          flash_algorithms := (families.getD i default).flash_algorithms ++ algos
          variants := (families.getD i default).variants ++ [mk_chip device_name device algos] } := by
  simp [merge_device, h]

theorem merge_device_new {families : List ChipFamily} {device : Device}
    (h : families.findIdx? (fun f => f.name == device.family) = none)
    (device_name core : String) (algos : List RawFlashAlgorithm) :
    merge_device families device_name device core algos =
      families ++ [{ name := device.family, manufacturer := none,
                     variants := [mk_chip device_name device algos],
                     core := core, flash_algorithms := algos }] := by
  simp only [merge_device, h]
  rw [getD_append_last, set_append_last]
  simp

theorem process_device_ok {device : Device} {clogs : List LogEntry} {core : String}
    (h : map_core device.processor = (clogs, Except.ok core))
    (extract : DeviceAlgorithm → Except String RawFlashAlgorithm)
    (families : List ChipFamily) (device_name : String) :
    process_device extract families device_name device =
      ((extract_algos extract device.algorithms).2 ++ clogs,
        Except.ok (merge_device families device_name device core
          (extract_algos extract device.algorithms).1)) := by
  rcases hE : extract_algos extract device.algorithms with ⟨algos, alogs⟩
  simp [process_device, hE, h]

theorem process_device_err {device : Device} {clogs : List LogEntry} {e : String}
    (h : map_core device.processor = (clogs, Except.error e))
    (extract : DeviceAlgorithm → Except String RawFlashAlgorithm)
    (families : List ChipFamily) (device_name : String) :
    process_device extract families device_name device =
      ((extract_algos extract device.algorithms).2 ++ clogs, Except.error e) := by
  rcases hE : extract_algos extract device.algorithms with ⟨algos, alogs⟩
  simp [process_device, hE, h]

theorem uint32_eq_of_toNat_eq {a b : UInt32} (h : a.toNat = b.toNat) : a = b := by
  cases a; cases b
  simp only [UInt32.toNat] at h
  congr 1
  exact BitVec.eq_of_toFin_eq (Fin.ext h)

theorem char_eq_of_toNat_eq {a b : Char} (h : a.toNat = b.toNat) : a = b :=
  Char.ext (uint32_eq_of_toNat_eq h)

theorem string_eq_of_data_eq {s t : String} (h : s.data = t.data) : s = t := by
  cases s; cases t
  simp only at h
  rw [h]

theorem chars_le_total : ∀ a b : List Char, chars_le a b = true ∨ chars_le b a = true
  | [], _ => Or.inl rfl
  | _ :: _, [] => Or.inr rfl
  | a :: as, b :: bs => by
    rcases Nat.lt_trichotomy a.toNat b.toNat with hab | hab | hab
    · left
      simp only [chars_le]
      rw [if_pos hab]
    · rcases chars_le_total as bs with h | h
      · left
        simp only [chars_le]
        rw [if_neg (by omega), if_neg (by omega)]
        exact h
      · right
        simp only [chars_le]
        rw [if_neg (by omega), if_neg (by omega)]
        exact h
    · right
      simp only [chars_le]
      rw [if_pos hab]

theorem chars_le_trans : ∀ a b c : List Char,
    chars_le a b = true → chars_le b c = true → chars_le a c = true
  | [], _, _, _, _ => rfl
  | _ :: _, [], _, h1, _ => by simp [chars_le] at h1
  | _ :: _, _ :: _, [], _, h2 => by simp [chars_le] at h2
  | a :: as, b :: bs, c :: cs, h1, h2 => by
    simp only [chars_le] at h1 h2 ⊢
    rcases Nat.lt_trichotomy a.toNat b.toNat with hab | hab | hab
    · rcases Nat.lt_trichotomy b.toNat c.toNat with hbc | hbc | hbc
      · rw [if_pos (by omega)]
      · rw [if_pos (by omega)]
      · rw [if_neg (by omega), if_pos (by omega)] at h2
        exact absurd h2 (by decide)
    · rcases Nat.lt_trichotomy b.toNat c.toNat with hbc | hbc | hbc
      · rw [if_pos (by omega)]
      · rw [if_neg (by omega), if_neg (by omega)] at h1
        rw [if_neg (by omega), if_neg (by omega)] at h2
        rw [if_neg (by omega), if_neg (by omega)]
        exact chars_le_trans as bs cs h1 h2
      · rw [if_neg (by omega), if_pos (by omega)] at h2
        exact absurd h2 (by decide)
    · rw [if_neg (by omega), if_pos (by omega)] at h1
      exact absurd h1 (by decide)

theorem chars_le_antisymm : ∀ a b : List Char,
    chars_le a b = true → chars_le b a = true → a = b
  | [], [], _, _ => rfl
  | [], _ :: _, _, h2 => by simp [chars_le] at h2
  | _ :: _, [], h1, _ => by simp [chars_le] at h1
  | a :: as, b :: bs, h1, h2 => by
    simp only [chars_le] at h1 h2
    rcases Nat.lt_trichotomy a.toNat b.toNat with hab | hab | hab
    · rw [if_neg (by omega), if_pos (by omega)] at h2
      exact absurd h2 (by decide)
    · rw [if_neg (by omega), if_neg (by omega)] at h1
      rw [if_neg (by omega), if_neg (by omega)] at h2
      rw [char_eq_of_toNat_eq hab, chars_le_antisymm as bs h1 h2]
    · rw [if_neg (by omega), if_pos (by omega)] at h1
      exact absurd h1 (by decide)

theorem name_le_antisymm {a b : String} (h1 : name_le a b = true)
    (h2 : name_le b a = true) : a = b :=
  string_eq_of_data_eq (chars_le_antisymm a.data b.data h1 h2)

theorem sort_devices_sorted (l : List (String × Device)) :
    (sort_devices l).Pairwise (fun a b => name_le a.1 b.1 = true) :=
  @List.sorted_mergeSort (String × Device) (fun a b => name_le a.1 b.1)
    (fun _ _ _ h1 h2 => chars_le_trans _ _ _ h1 h2)
    (fun a b => by
      rcases chars_le_total a.1.data b.1.data with h | h <;> simp [name_le, h]) l

theorem sort_devices_perm (l : List (String × Device)) : (sort_devices l).Perm l :=
  List.mergeSort_perm l _

theorem sort_devices_of_sorted {l : List (String × Device)}
    (h : l.Pairwise (fun a b => name_le a.1 b.1 = true)) : sort_devices l = l :=
  List.mergeSort_of_sorted h

theorem sorted_keys_nodup_strict {l : List (String × Device)}
    (hs : l.Pairwise (fun a b => name_le a.1 b.1 = true))
    (hn : (l.map Prod.fst).Nodup) :
    l.Pairwise (fun a b => name_le a.1 b.1 = true ∧ a.1 ≠ b.1) := by
  have hne : l.Pairwise (fun a b => a.1 ≠ b.1) := List.pairwise_map.mp hn
  exact hs.and hne

theorem getD_map {α β : Type} (f : α → β) (d : α) :
    ∀ (l : List α) (i : Nat), i < l.length →
      (l.map f).getD i (f d) = f (l.getD i d)
  | [], i, h => absurd h (Nat.not_lt_zero i)
  | x :: xs, 0, _ => rfl
  | x :: xs, i + 1, h => by
    simp [getD_map f d xs i (Nat.lt_of_succ_lt_succ h)]

theorem getD_mem {α : Type} {l : List α} {i : Nat} (d : α) (h : i < l.length) :
    l.getD i d ∈ l := by
  rw [List.getD_eq_getElem?_getD, List.getElem?_eq_getElem h]
  exact List.getElem_mem h

theorem extract_algos_mem {extract : DeviceAlgorithm → Except String RawFlashAlgorithm}
    {l : List DeviceAlgorithm} {fa : RawFlashAlgorithm}
    (h : fa ∈ (extract_algos extract l).1) : ∃ r ∈ l, extract r = Except.ok fa := by
  rw [extract_algos_fst] at h
  obtain ⟨r, hr, he⟩ := List.mem_filterMap.mp h
  refine ⟨r, hr, ?_⟩
  cases hE : extract r
  case error e =>
    rw [hE] at he
    simp [Except.toOption] at he
  case ok a =>
    rw [hE] at he
    simp only [Except.toOption, Option.some.injEq] at he
    rw [he]

theorem visit_arm_file_ok_stages (env : RemoteEnv) (pack : Pack) {bytes : List Nat}
    {entries : List ZipEntry} {i : Nat} {content : String} {package : Package}
    (hdl : env.download (resolve_url pack.PackUrl) = DownloadResult.ok bytes)
    (hzip : env.open_zip bytes = Except.ok entries)
    (hfind : find_pdsc_in_archive (entries.map (fun e => e.name)) = some i)
    (hread : env.read_entry (entries.getD i default) = Except.ok content)
    (hparse : env.parse_pdsc content = Except.ok package)
    (families : List ChipFamily) :
    visit_arm_file env families pack =
      (match handle_package (env.extract entries) package families with
       | (families', logs, none) => (families', logs)
       | (families', logs, some e) =>
         (families', logs ++ [LogEntry.errorHandlePackage (resolve_url pack.PackUrl) e])) := by
  simp only [visit_arm_file, hdl, hzip, hfind, hread, hparse]

theorem visit_arm_files_fst_append (env : RemoteEnv) (l1 l2 : List Pack)
    (families : List ChipFamily) :
    (visit_arm_files env (l1 ++ l2) families).1 =
      (visit_arm_files env l2 (visit_arm_files env l1 families).1).1 := by
  induction l1 generalizing families with
  | nil => simp [visit_arm_files]
  | cons p rest ih => simp [visit_arm_files, ih]

/-! ## C1 — memory-region selection permissions -/

/-- C1 fails as stated: `get_ram` (generate.rs:314-325) never checks the
execute bit, so it selects a RAM region for a device whose only declared
region is executable. Here `c1_device`'s single memory has
read/write/execute all set, yet `get_ram` picks it. -/
theorem C1_counterexample :
    get_ram c1_device =
      some { rangeStart := 536870912, rangeEnd := 536875008, is_boot_memory := false } ∧
    c1_device.memories.map (fun m => m.access.execute) = [true] := by
  exact ⟨rfl, rfl⟩

/-- C1 (amended): the Flash selection takes the first `default` region with
read and execute and without write — so a selected Flash region never has
write permission — while the RAM selection takes the first `default` region
with read and write, leaving the execute bit unexamined (a selected RAM
region may be executable). -/
theorem C1_selection_permissions (device : Device) :
    (∀ m, device.memories.find? flash_cond = some m →
      m.default = true ∧ m.access.read = true ∧ m.access.execute = true ∧
        m.access.write = false) ∧
    (∀ m, device.memories.find? ram_cond = some m →
      m.default = true ∧ m.access.read = true ∧ m.access.write = true) := by
  constructor <;> intro m h <;> have hc := List.find?_some h
  · simp only [flash_cond, Bool.and_eq_true, Bool.not_eq_true'] at hc
    exact ⟨hc.1.1.1, hc.1.1.2, hc.1.2, hc.2⟩
  · simp only [ram_cond, Bool.and_eq_true] at hc
    exact ⟨hc.1.1, hc.1.2, hc.2⟩

/-- Witness for C1: on `c1w_device` the selected Flash region (its second
memory) indeed has no write permission and the selected RAM region reads. -/
theorem C1_selection_permissions_witness :
    mem_rx.access.write = false ∧ mem_rw.access.read = true :=
  ⟨((C1_selection_permissions c1w_device).1 mem_rx (by decide)).2.2.2,
   ((C1_selection_permissions c1w_device).2 mem_rw (by decide)).1⟩

/-! ## C2 — algorithm merge into the family set -/

/-- C2 fails as stated: merging a device whose extracted algorithm collides by
lowercase name with a stored one appends it anyway (generate.rs:124-126 has no
deduplication); the family ends with both `algo` and `ALGO`, whose lowercase
names coincide, and the later algorithm is not discarded. -/
theorem C2_counterexample :
    (process_device c2_extract [c2_family] "D2" c2_device).2 =
      Except.ok [{ c2_family with
        flash_algorithms := [c2_algo_old, c2_algo_new],
        variants := [{ name := "D2", part := none, memory_map := [],
                       flash_algorithms := ["algo"] }] }] ∧
    to_lowercase c2_algo_new.name = c2_algo_old.name := by
  exact ⟨by decide, by decide⟩

/-- C2 (amended): merging a device into an existing family appends every
successfully extracted algorithm to the family's algorithm list, in extraction
order and without any deduplication; the entries already stored stay unchanged
(ahead of the appended ones) and every other family is untouched. -/
theorem C2_merge_appends (extract : DeviceAlgorithm → Except String RawFlashAlgorithm)
    (families : List ChipFamily) (i : Nat) (device_name : String) (device : Device)
    (clogs : List LogEntry) (core : String)
    (hi : families.findIdx? (fun f => f.name == device.family) = some i)
    (hcore : map_core device.processor = (clogs, Except.ok core)) :
    ∃ families',
      (process_device extract families device_name device).2 = Except.ok families' ∧
      families'.length = families.length ∧
      (families'.getD i default).flash_algorithms =
        (families.getD i default).flash_algorithms ++
          (extract_algos extract device.algorithms).1 ∧
      ∀ j, j ≠ i → families'.getD j default = families.getD j default := by
  have hlt : i < families.length :=
    (findIdx?_some_spec (fun f => f.name == device.family) default hi).1
  refine ⟨merge_device families device_name device core
      (extract_algos extract device.algorithms).1,
    by rw [process_device_ok hcore], ?_, ?_, ?_⟩
  · rw [merge_device_found hi, List.length_set]
  · rw [merge_device_found hi, getD_set_self _ _ _ _ hlt]
  · intro j hj
    rw [merge_device_found hi, getD_set_ne _ _ _ _ _ (fun he => hj he.symm)]

/-- Witness for C2 (amended) at the concrete collision scenario. -/
theorem C2_merge_appends_witness :
    ∃ families',
      (process_device c2_extract [c2_family] "D2w" c2_device).2 = Except.ok families' ∧
      families'.length = [c2_family].length ∧
      (families'.getD 0 default).flash_algorithms =
        ([c2_family].getD 0 default).flash_algorithms ++
          (extract_algos c2_extract c2_device.algorithms).1 ∧
      ∀ j, j ≠ 0 → families'.getD j default = [c2_family].getD j default :=
  C2_merge_appends c2_extract [c2_family] 0 "D2w" c2_device [] "M0" (by decide) (by decide)

/-! ## C3 — unmapped and asymmetric cores -/

/-- C3 fails as stated: in `handle_package` (generate.rs:91-93) a symmetric
core with no mapping-table entry hits `bail!`, so the whole package errors.
Here device "A" (a Cortex-M23) aborts processing, and the supported device
"B" of the same package is never processed — the result registry is empty
and the error is returned. -/
theorem C3_counterexample :
    handle_package no_extract c3_package [] =
      ([], [], some "Core is not yet supported for target generation.") ∧
    c3_package.devices.map Prod.fst = ["A", "B"] := by
  constructor
  · show handle_package_go no_extract (sort_devices c3_package.devices) [] [] = _
    rw [sort_devices_of_sorted (by decide)]
    decide
  · decide

/-- C3 (amended): an asymmetric-processor device is non-fatal — the warning is
logged, its core identifier is the empty string (recorded when its family is
created) and processing of the remaining devices continues — but a device
whose symmetric core has no entry in generate.rs's mapping table makes
`handle_package` fail with an error, aborting its package (the legacy main.rs
path instead logs such a core and continues with an empty identifier). -/
theorem C3_core_handling (extract : DeviceAlgorithm → Except String RawFlashAlgorithm)
    (families : List ChipFamily) (device_name : String) (device bad : Device)
    (p : Processor) (rest : List (String × Device)) (logs : List LogEntry)
    (hasym : device.processor = Processors.asymmetric)
    (hbad : bad.processor = Processors.symmetric p)
    (hun : core_name p.core = none) :
    (process_device extract families device_name bad).2 =
      Except.error "Core is not yet supported for target generation." ∧
    main_map_core (Processors.symmetric { core := Core.cortexM7 }) =
      ([LogEntry.warnUnsupportedCore], "") ∧
    ∃ families' dlogs,
      process_device extract families device_name device = (dlogs, Except.ok families') ∧
      LogEntry.warnAsymmetric ∈ dlogs ∧
      handle_package_go extract ((device_name, device) :: rest) families logs =
        handle_package_go extract rest families' (logs ++ dlogs) ∧
      (families.findIdx? (fun f => f.name == device.family) = none →
        ∃ fam, families' = families ++ [fam] ∧ fam.core = "") := by
  have hmbad : map_core bad.processor =
      ([], Except.error "Core is not yet supported for target generation.") := by
    rw [hbad]
    simp [map_core, hun]
  have hmdev : map_core device.processor =
      ([LogEntry.warnAsymmetric], Except.ok "") := by
    rw [hasym]
    rfl
  refine ⟨by rw [process_device_err hmbad], rfl,
    merge_device families device_name device "" (extract_algos extract device.algorithms).1,
    (extract_algos extract device.algorithms).2 ++ [LogEntry.warnAsymmetric],
    process_device_ok hmdev extract families device_name, by simp, ?_, ?_⟩
  · simp only [handle_package_go, process_device_ok hmdev]
  · intro hnone
    exact ⟨_, merge_device_new hnone device_name "" _, rfl⟩

/-- Witness for C3 at concrete devices: an asymmetric-processor device and a
Cortex-M23 device. -/
theorem C3_core_handling_witness :
    (process_device no_extract [] "D3" c3_bad_device).2 =
      Except.error "Core is not yet supported for target generation." ∧
    main_map_core (Processors.symmetric { core := Core.cortexM7 }) =
      ([LogEntry.warnUnsupportedCore], "") ∧
    ∃ families' dlogs,
      process_device no_extract [] "D3" c3_asym_device = (dlogs, Except.ok families') ∧
      LogEntry.warnAsymmetric ∈ dlogs ∧
      handle_package_go no_extract [("D3", c3_asym_device)] [] [] =
        handle_package_go no_extract [] families' ([] ++ dlogs) ∧
      (([] : List ChipFamily).findIdx? (fun f => f.name == c3_asym_device.family) = none →
        ∃ fam, families' = [] ++ [fam] ∧ fam.core = "") :=
  C3_core_handling no_extract [] "D3" c3_asym_device c3_bad_device { core := .cortexM23 }
    [] [] rfl rfl rfl

/-! ## C4 — deterministic name-sorted processing -/

/-- C4: `handle_package` processes exactly the name-sorted permutation of the
descriptor's device collection; with unique device names (map keys), any two
iteration orders of the same device set sort to the identical sequence, so the
registry outcome for identical input is reproducible. -/
theorem C4_sorted_processing (extract : DeviceAlgorithm → Except String RawFlashAlgorithm)
    (pdsc : Package) (families : List ChipFamily)
    (l1 l2 : List (String × Device)) (hperm : l1.Perm l2)
    (hnodup : (l1.map Prod.fst).Nodup) :
    handle_package extract pdsc families =
      handle_package_go extract (sort_devices pdsc.devices) families [] ∧
    (sort_devices pdsc.devices).Pairwise (fun a b => name_le a.1 b.1 = true) ∧
    (sort_devices pdsc.devices).Perm pdsc.devices ∧
    sort_devices l1 = sort_devices l2 := by
  refine ⟨rfl, sort_devices_sorted _, sort_devices_perm _, ?_⟩
  have hs1 := sort_devices_sorted l1
  have hs2 := sort_devices_sorted l2
  have hp1 := sort_devices_perm l1
  have hp2 := sort_devices_perm l2
  have hn1 : ((sort_devices l1).map Prod.fst).Nodup :=
    ((hp1.map Prod.fst).nodup_iff).mpr hnodup
  have hn2s : (l2.map Prod.fst).Nodup := ((hperm.map Prod.fst).nodup_iff).mp hnodup
  have hn2 : ((sort_devices l2).map Prod.fst).Nodup :=
    ((hp2.map Prod.fst).nodup_iff).mpr hn2s
  have hlt1 := sorted_keys_nodup_strict hs1 hn1
  have hlt2 := sorted_keys_nodup_strict hs2 hn2
  have hperm12 : (sort_devices l1).Perm (sort_devices l2) :=
    (hp1.trans hperm).trans hp2.symm
  haveI : IsAntisymm (String × Device)
      (fun a b => name_le a.1 b.1 = true ∧ a.1 ≠ b.1) :=
    ⟨fun a b h1 h2 => absurd (name_le_antisymm h1.1 h2.1) h1.2⟩
  exact List.eq_of_perm_of_sorted hperm12 hlt1 hlt2

/-- Witness for C4: the two iteration orders of the same two-device set sort
to the same processed sequence. -/
theorem C4_sorted_processing_witness :
    handle_package no_extract c4_package [] =
      handle_package_go no_extract (sort_devices c4_package.devices) [] [] ∧
    (sort_devices c4_package.devices).Pairwise (fun a b => name_le a.1 b.1 = true) ∧
    (sort_devices c4_package.devices).Perm c4_package.devices ∧
    sort_devices c4_l1 = sort_devices c4_l2 :=
  C4_sorted_processing no_extract c4_package [] c4_l1 c4_l2 (by decide) (by decide)

/-! ## C5 — per-algorithm failure isolation -/

/-- C5: a failing member lookup or extraction is logged (`warnFailedAlgo` with
its reason) and only that algorithm is omitted: the device's extracted list is
exactly the successes in their original order, and the device's processing and
registry merge proceed with them — processing fails only through the core
mapping, never through extraction. -/
theorem C5_extraction_isolated (extract : DeviceAlgorithm → Except String RawFlashAlgorithm)
    (families : List ChipFamily) (device_name : String) (device : Device)
    (clogs : List LogEntry) (core : String)
    (hcore : map_core device.processor = (clogs, Except.ok core)) :
    (extract_algos extract device.algorithms).1 =
      device.algorithms.filterMap (fun r => (extract r).toOption) ∧
    (extract_algos extract device.algorithms).2 =
      device.algorithms.filterMap (fun r =>
        match extract r with
        | .ok _ => none
        | .error e => some (LogEntry.warnFailedAlgo e)) ∧
    (process_device extract families device_name device).2 =
      Except.ok (merge_device families device_name device core
        (device.algorithms.filterMap (fun r => (extract r).toOption))) := by
  refine ⟨extract_algos_fst extract _, extract_algos_snd extract _, ?_⟩
  rw [process_device_ok hcore]
  simp only [extract_algos_fst]

/-- Witness for C5: of the device's two referenced algorithms one extraction
fails; the surviving list holds exactly the good one and the device merges. -/
theorem C5_extraction_isolated_witness :
    (extract_algos c5_extract c5_device.algorithms).1 =
      c5_device.algorithms.filterMap (fun r => (c5_extract r).toOption) ∧
    (extract_algos c5_extract c5_device.algorithms).2 =
      c5_device.algorithms.filterMap (fun r =>
        match c5_extract r with
        | .ok _ => none
        | .error e => some (LogEntry.warnFailedAlgo e)) ∧
    (process_device c5_extract [] "D5" c5_device).2 =
      Except.ok (merge_device [] "D5" c5_device "M3"
        (c5_device.algorithms.filterMap (fun r => (c5_extract r).toOption))) :=
  C5_extraction_isolated c5_extract [] "D5" c5_device [] "M3" rfl

/-! ## C6 — absent memory-map slots -/

/-- C6 fails as stated against the legacy `main.rs` path it cites: for a
device with no RAM-matching region, main.rs:140 calls `ram.unwrap()` on
`None`, a panic (modelled `none`) — processing the device does not succeed
there. -/
theorem C6_counterexample :
    main_chip_memory_map (main_get_ram c6_device) (main_get_flash 0 0 255 c6_device) =
      none ∧
    c6_device.memories = [] :=
  ⟨rfl, rfl⟩

/-- C6 (amended): in the `generate.rs` path a device with no matching RAM or
Flash region still succeeds — the chip's memory map simply lacks the
corresponding entry (nothing is fabricated, nothing fails) — while in the
legacy `main.rs` path a missing slot panics. -/
theorem C6_missing_region (extract : DeviceAlgorithm → Except String RawFlashAlgorithm)
    (families : List ChipFamily) (device_name : String) (device : Device)
    (clogs : List LogEntry) (core : String) (algos : List RawFlashAlgorithm)
    (hcore : map_core device.processor = (clogs, Except.ok core)) :
    ((process_device extract families device_name device).2 =
      Except.ok (merge_device families device_name device core
        (extract_algos extract device.algorithms).1)) ∧
    (get_ram device = none →
      ∀ r, MemoryRegion.ram r ∉ (mk_chip device_name device algos).memory_map) ∧
    (get_flash device = none →
      ∀ f, MemoryRegion.flash f ∉ (mk_chip device_name device algos).memory_map) ∧
    (∀ mf, main_get_ram device = none →
      main_chip_memory_map (main_get_ram device) mf = none) := by
  refine ⟨by rw [process_device_ok hcore], ?_, ?_, ?_⟩
  · intro hr r
    cases hf : get_flash device <;> simp [mk_chip, hr, hf]
  · intro hf f
    cases hr : get_ram device <;> simp [mk_chip, hr, hf]
  · intro mf hr
    rw [hr]
    cases mf <;> rfl

/-- Witness for C6: a device declaring no memory regions at all still
processes in the `generate.rs` path with an empty memory map, while the
legacy path panics on it. -/
theorem C6_missing_region_witness :
    ((process_device no_extract [] "D6" c6_device).2 =
      Except.ok (merge_device [] "D6" c6_device "M7"
        (extract_algos no_extract c6_device.algorithms).1)) ∧
    (get_ram c6_device = none →
      ∀ r, MemoryRegion.ram r ∉ (mk_chip "D6" c6_device []).memory_map) ∧
    (get_flash c6_device = none →
      ∀ f, MemoryRegion.flash f ∉ (mk_chip "D6" c6_device []).memory_map) ∧
    (∀ mf, main_get_ram c6_device = none →
      main_chip_memory_map (main_get_ram c6_device) mf = none) :=
  C6_missing_region no_extract [] "D6" c6_device [] "M7" [] rfl

/-! ## C7 — chip references link into the family set -/

theorem wellLinked_merge {families : List ChipFamily} (hwl : WellLinked families)
    (device_name : String) (device : Device) (core : String)
    (algos : List RawFlashAlgorithm)
    (hlc : ∀ fa ∈ algos, to_lowercase fa.name = fa.name) :
    WellLinked (merge_device families device_name device core algos) := by
  have hchip : ∀ ref ∈ (mk_chip device_name device algos).flash_algorithms,
      ∃ fa ∈ algos, fa.name = ref := by
    intro ref href
    simp only [mk_chip, List.mem_map] at href
    obtain ⟨fa, hfa, hrw⟩ := href
    exact ⟨fa, hfa, by rw [← hrw]; exact (hlc fa hfa).symm⟩
  cases hidx : families.findIdx? (fun f => f.name == device.family) with
  | some i =>
    rw [merge_device_found hidx]
    intro fam hfam chip hchip' ref href
    rcases List.mem_or_eq_of_mem_set hfam with hold | hnew
    · exact hwl fam hold chip hchip' ref href
    · subst hnew
      rcases List.mem_append.mp hchip' with holdc | hnewc
      · have hi : i < families.length := (findIdx?_some_spec _ default hidx).1
        obtain ⟨fa, hfam', hname⟩ := hwl _ (getD_mem default hi) chip holdc ref href
        exact ⟨fa, List.mem_append_left _ hfam', hname⟩
      · rw [List.mem_singleton] at hnewc
        subst hnewc
        obtain ⟨fa, hfa, hname⟩ := hchip ref href
        exact ⟨fa, List.mem_append_right _ hfa, hname⟩
  | none =>
    rw [merge_device_new hidx]
    intro fam hfam chip hchip' ref href
    rcases List.mem_append.mp hfam with hold | hnew
    · exact hwl fam hold chip hchip' ref href
    · rw [List.mem_singleton] at hnew
      subst hnew
      rw [List.mem_singleton] at hchip'
      subst hchip'
      exact hchip ref href

theorem wellLinked_process {extract : DeviceAlgorithm → Except String RawFlashAlgorithm}
    (hlce : LowercaseExtractor extract) {families : List ChipFamily}
    (hwl : WellLinked families) (device_name : String) (device : Device)
    {families' : List ChipFamily} {dlogs : List LogEntry}
    (h : process_device extract families device_name device = (dlogs, Except.ok families')) :
    WellLinked families' := by
  rcases hmc : map_core device.processor with ⟨clogs, res⟩
  cases res with
  | error e =>
    rw [process_device_err hmc] at h
    exact Except.noConfusion (congrArg (fun q => q.2) h)
  | ok core =>
    rw [process_device_ok hmc] at h
    have h3 := Except.ok.inj (congrArg (fun q => q.2) h)
    rw [← h3]
    refine wellLinked_merge hwl device_name device core _ ?_
    intro fa hfa
    obtain ⟨r, _, hr⟩ := extract_algos_mem hfa
    exact hlce r fa hr

theorem wellLinked_go {extract : DeviceAlgorithm → Except String RawFlashAlgorithm}
    (hlce : LowercaseExtractor extract) :
    ∀ (devices : List (String × Device)) {families : List ChipFamily},
      WellLinked families → ∀ (logs : List LogEntry),
      WellLinked (handle_package_go extract devices families logs).1
  | [], _, hwl, _ => hwl
  | (dn, device) :: rest, families, hwl, logs => by
    rcases hp : process_device extract families dn device with ⟨dlogs, res⟩
    cases res with
    | ok families' =>
      simp only [handle_package_go, hp]
      exact wellLinked_go hlce rest (wellLinked_process hlce hwl dn device hp) _
    | error e =>
      simp only [handle_package_go, hp]
      exact hwl

/-- C7: provided the extractor's stored algorithm names are
lowercase-normalized (a property of `parser::extract_flash_algo`, whose source
is not under `src/`; modelled from the spec via `LowercaseExtractor`),
aggregation preserves the linking invariant: starting from any well-linked
registry — in particular the empty one — after any package every name in every
chip's reference list equals the name of an algorithm stored in the owning
family's set. -/
theorem C7_refs_link (extract : DeviceAlgorithm → Except String RawFlashAlgorithm)
    (hlce : LowercaseExtractor extract) (pdsc : Package)
    (families : List ChipFamily) (hwl : WellLinked families) :
    WellLinked (handle_package extract pdsc families).1 :=
  wellLinked_go hlce (sort_devices pdsc.devices) hwl []

/-- Witness for C7: one device referencing one algorithm whose extracted
record is named "algo". -/
theorem C7_refs_link_witness : WellLinked (handle_package c7_extract c7_package []).1 :=
  C7_refs_link c7_extract
    (fun _ fa h => by
      have hfa := Except.ok.inj h
      rw [← hfa]
      decide)
    c7_package [] (fun fam hfam => absurd hfam (List.not_mem_nil _))

/-! ## C8 — exactly one descriptor per archive -/

/-- C8: per archive exactly one descriptor member is expected: if no member's
(sanitized) name has the `pdsc` extension, `visit_file` fails with an error,
and whenever the scan returns an index it is the lowest index carrying the
`pdsc` extension (every earlier member does not). -/
theorem C8_single_pdsc (entries : List ZipEntry)
    (parse_pdsc : String → Except String Package)
    (extract : DeviceAlgorithm → Except String RawFlashAlgorithm)
    (families : List ChipFamily) :
    ((∀ e ∈ entries, file_extension e.name ≠ some "pdsc") →
      visit_file parse_pdsc extract entries families =
        Except.error "Failed to find .pdsc file in archive") ∧
    (∀ i, find_pdsc_in_archive (entries.map (fun e => e.name)) = some i →
      i < entries.length ∧
      file_extension (entries.getD i default).name = some "pdsc" ∧
      ∀ j, j < i → file_extension (entries.getD j default).name ≠ some "pdsc") := by
  constructor
  · intro hno
    have hnone : find_pdsc_in_archive (entries.map (fun e => e.name)) = none := by
      rw [find_pdsc_in_archive, List.findIdx?_eq_none_iff]
      intro x hx
      obtain ⟨e, he, rfl⟩ := List.mem_map.mp hx
      exact beq_eq_false_iff_ne.mpr (hno e he)
    simp [visit_file, hnone]
  · intro i h
    rw [find_pdsc_in_archive] at h
    obtain ⟨h1, h2, h3⟩ :=
      findIdx?_some_spec (fun name => file_extension name == some "pdsc")
        ((fun e : ZipEntry => e.name) default) h
    rw [List.length_map] at h1
    rw [getD_map (fun e : ZipEntry => e.name) default entries i h1] at h2
    refine ⟨h1, beq_iff_eq.mp h2, ?_⟩
    intro j hj
    have hjl : j < entries.length := Nat.lt_trans hj h1
    have h4 := h3 j hj
    rw [getD_map (fun e : ZipEntry => e.name) default entries j hjl] at h4
    exact beq_eq_false_iff_ne.mp h4

/-- Witness for C8: an archive whose only member is `readme.txt` makes
`visit_file` fail. -/
theorem C8_single_pdsc_witness :
    visit_file c8_parse no_extract c8_entries [] =
      Except.error "Failed to find .pdsc file in archive" :=
  (C8_single_pdsc c8_entries c8_parse no_extract []).1 (by decide)

/-! ## C9 — remote batch failure containment -/

/-- C9 fails as stated: a pack that fails *during* device processing is not
entirely skipped. In this two-pack batch the first pack's descriptor holds a
good device "A" and a bad-core device "B"; `handle_package` merges "A" and
then errors, `visit_arm_file` logs the error and keeps the families merged so far —
the final registry contains family `F9A` contributed by the *failed* pack
alongside the second pack's family. -/
theorem C9_counterexample :
    visit_arm_files c9_env [c9_pack1, c9_pack2] [] =
      ([c9_famA, c9_famC],
       [LogEntry.errorHandlePackage "http://packs.example/p1.pack"
          "Core is not yet supported for target generation."]) ∧
    c9_famA.name = c9_good_device.family := by
  have h1 : handle_package (c9_env.extract [c9_entry1]) c9_package1 [] =
      ([c9_famA], [], some "Core is not yet supported for target generation.") := by
    show handle_package_go (c9_env.extract [c9_entry1])
      (sort_devices c9_package1.devices) [] [] = _
    rw [sort_devices_of_sorted (by decide)]
    decide
  have h2 : handle_package (c9_env.extract [c9_entry2]) c9_package2 [c9_famA] =
      ([c9_famA, c9_famC], [], none) := by
    show handle_package_go (c9_env.extract [c9_entry2])
      (sort_devices c9_package2.devices) [c9_famA] [] = _
    rw [sort_devices_of_sorted (by decide)]
    decide
  have v1 : visit_arm_file c9_env [] c9_pack1 =
      ([c9_famA],
       [LogEntry.errorHandlePackage "http://packs.example/p1.pack"
          "Core is not yet supported for target generation."]) := by
    have hv := visit_arm_file_ok_stages c9_env c9_pack1 rfl rfl rfl rfl rfl []
    rw [hv, h1]
    rfl
  have v2 : visit_arm_file c9_env [c9_famA] c9_pack2 = ([c9_famA, c9_famC], []) := by
    have hv := visit_arm_file_ok_stages c9_env c9_pack2 rfl rfl rfl rfl rfl [c9_famA]
    rw [hv, h2]
  refine ⟨?_, rfl⟩
  simp [visit_arm_files, v1, v2]

/-- C9 (amended): a pack whose download fails contributes nothing — the
failure is logged as an error and the registry is handed on untouched — and a
batch containing such a pack produces exactly the registry of the batch
without it, so every other pack's contribution is complete. (A pack failing
inside `handle_package` instead keeps the devices merged before the error;
see the counterexample.) -/
theorem C9_download_failure_contained (env : RemoteEnv) (packs1 packs2 : List Pack)
    (p : Pack) (families : List ChipFamily) (msg : String)
    (hdl : env.download (resolve_url p.PackUrl) = DownloadResult.requestError msg) :
    (∀ fams, visit_arm_file env fams p =
      (fams, [LogEntry.errorDownload (resolve_url p.PackUrl) msg])) ∧
    (visit_arm_files env (packs1 ++ p :: packs2) families).1 =
      (visit_arm_files env (packs1 ++ packs2) families).1 := by
  have hv : ∀ fams, visit_arm_file env fams p =
      (fams, [LogEntry.errorDownload (resolve_url p.PackUrl) msg]) := by
    intro fams
    simp [visit_arm_file, hdl]
  refine ⟨hv, ?_⟩
  rw [visit_arm_files_fst_append, visit_arm_files_fst_append]
  simp [visit_arm_files, hv]

/-- Witness for C9 (amended): a one-pack batch whose download fails yields the
registry of the empty batch. -/
theorem C9_download_failure_contained_witness :
    (∀ fams, visit_arm_file c9w_env fams c9w_pack =
      (fams, [LogEntry.errorDownload (resolve_url c9w_pack.PackUrl) "connection refused"])) ∧
    (visit_arm_files c9w_env ([] ++ c9w_pack :: []) []).1 =
      (visit_arm_files c9w_env ([] ++ []) []).1 :=
  C9_download_failure_contained c9w_env [] [] c9w_pack [] "connection refused" rfl

/-! ## C10 — family identity is frozen by its first device -/

/-- C10: merging a later device into an existing family leaves the family's
`name` and `core` exactly as the first processed device set them — even when
the later device's own core maps differently — while its chip and algorithms
are appended under that original identity; every other family is untouched. -/
theorem C10_family_frame (extract : DeviceAlgorithm → Except String RawFlashAlgorithm)
    (families : List ChipFamily) (i : Nat) (device_name : String) (device : Device)
    (clogs : List LogEntry) (core : String)
    (hi : families.findIdx? (fun f => f.name == device.family) = some i)
    (hcore : map_core device.processor = (clogs, Except.ok core)) :
    ∃ families',
      (process_device extract families device_name device).2 = Except.ok families' ∧
      families'.length = families.length ∧
      (families'.getD i default).name = (families.getD i default).name ∧
      (families'.getD i default).core = (families.getD i default).core ∧
      (families'.getD i default).variants =
        (families.getD i default).variants ++
          [mk_chip device_name device (extract_algos extract device.algorithms).1] ∧
      ∀ j, j ≠ i → families'.getD j default = families.getD j default := by
  have hlt : i < families.length :=
    (findIdx?_some_spec (fun f => f.name == device.family) default hi).1
  refine ⟨merge_device families device_name device core
      (extract_algos extract device.algorithms).1,
    by rw [process_device_ok hcore], ?_, ?_, ?_, ?_, ?_⟩
  · rw [merge_device_found hi, List.length_set]
  · rw [merge_device_found hi, getD_set_self _ _ _ _ hlt]
  · rw [merge_device_found hi, getD_set_self _ _ _ _ hlt]
  · rw [merge_device_found hi, getD_set_self _ _ _ _ hlt]
  · intro j hj
    rw [merge_device_found hi, getD_set_ne _ _ _ _ _ (fun he => hj he.symm)]

/-- Witness for C10: the family was created by a first device mapping to
"M0"; a second device of the same family mapping to "M4" merges under the
unchanged name and core. -/
theorem C10_family_frame_witness :
    ∃ families',
      (process_device no_extract [c10_family] "D2" c10_device2).2 = Except.ok families' ∧
      families'.length = [c10_family].length ∧
      (families'.getD 0 default).name = ([c10_family].getD 0 default).name ∧
      (families'.getD 0 default).core = ([c10_family].getD 0 default).core ∧
      (families'.getD 0 default).variants =
        ([c10_family].getD 0 default).variants ++
          [mk_chip "D2" c10_device2 (extract_algos no_extract c10_device2.algorithms).1] ∧
      ∀ j, j ≠ 0 → families'.getD j default = [c10_family].getD j default :=
  C10_family_frame no_extract [c10_family] 0 "D2" c10_device2 [] "M4" (by decide) rfl

end TargetGen
